import Mathlib

/-!
Shallow embedding of the `mosca` resource-ownership core
(`src/mosca/devices/resource.py`, `src/mosca/utils.py`).

Modelling conventions:
* Python objects have identity; every resource node carries an `id : Nat`
  standing for its object identity.  `ResourceSet.__init__` de-duplicates its
  arguments with Python's `set()`, which for `Resource` instances (no custom
  `__eq__`/`__hash__`) compares by object identity, so the model de-duplicates
  by the `id` field.
* A "user" is any object exposing a `path` attribute; `retain`/`is_available`
  accept `None` as well, so user arguments are `Option User`.
* Observer lists (`Resource._observers`) are per-object mutable state keyed by
  object identity, modelled as a function `Nat → List Nat` (node id to the ids
  of the objects watching it).  Only constructors touch this state
  (`ResourceMap.__init__` calls `item.watch(self)`).
* Notifications: `Resource._fire` synchronously calls `resource_changed()` on
  every observer that has the attribute.  Instead of modelling arbitrary
  callback code inside the tree semantics, the operational functions below
  return, together with the new tree, the number of times the *root* node's
  `_fire` ran during the call: every external observer of the root that
  implements `resource_changed` receives exactly that many callbacks.
  The mutable-iteration behaviour of `_fire` itself is modelled separately
  (`fireSteps` below, from `Observed._fire` / `Resource._fire`).
-/

/-- User identity: an external object with a `path` attribute used as the
equality key (`ResourceElement.is_available` compares `self._user.path == user.path`). -/
structure User where
  path : String
deriving DecidableEq, Repr

/-- Embedding of `mosca.utils.Result`, a namedtuple `(success, message, value)`.
The `value` carried by the resource operations is a resource, hence the
type parameter. -/
structure MResult (α : Type) where
  success : Bool
  message : String
  value : Option α
deriving Repr

/-- Embedding of the classmethod `Result.success(value)` with its default
message handling (`message = "success"` when none is given). -/
def MResult.mkSuccess {α : Type} (value : Option α) : MResult α :=
  ⟨true, "success", value⟩

/-- Embedding of the classmethod `Result.failure(message)` (callers in
`resource.py` always pass a message, and no value, so `value = none`). -/
def MResult.mkFailure {α : Type} (message : String) : MResult α :=
  ⟨false, message, none⟩

/-- A concrete resource tree: `ResourceElement` leaves and the two concrete
`ResourceGroup` subclasses.  `elem` carries `self._user`; the groups carry the
private re-entrancy flag `self.__changing` (initialised `False` in
`ResourceGroup.__init__`) and their children (`self._children`): an (already
de-duplicated) tuple for `ResourceSet`, an insertion-ordered name→child mapping
for `ResourceMap`. -/
inductive Res where
  | elem (id : Nat) (user : Option User)
  | set (id : Nat) (changing : Bool) (children : List Res)
  | map (id : Nat) (changing : Bool) (children : List (String × Res))
deriving Repr

/-- Object identity of a node. -/
def Res.nodeId : Res → Nat
  | .elem i _ => i
  | .set i _ _ => i
  | .map i _ _ => i

/-- Embedding of `ResourceElement.is_available(user)`: free element → `True`;
used element and no candidate → `False`; otherwise compare the two paths. -/
def elemAvailable (cur : Option User) (user : Option User) : Bool :=
  match cur with
  | none => true
  | some c =>
    match user with
    | none => false
    | some u => c.path == u.path

mutual
/-- Embedding of `is_available`: `ResourceElement.is_available` on leaves,
`ResourceGroup.is_available` (`all(comp.is_available(user) for comp in self.values())`)
on groups, where `values()` is the children tuple of a `ResourceSet` and the
`OrderedDict` values of a `ResourceMap`. -/
def Res.is_available : Res → Option User → Bool
  | .elem _ cur, user => elemAvailable cur user
  | .set _ _ cs, user => availList cs user
  | .map _ _ cs, user => availNamed cs user

/-- Conjunction of `is_available` over a children tuple (`ResourceSet.values()`). -/
def availList : List Res → Option User → Bool
  | [], _ => true
  | c :: cs, user => c.is_available user && availList cs user

/-- Conjunction of `is_available` over ordered map entries (`ResourceMap.values()`). -/
def availNamed : List (String × Res) → Option User → Bool
  | [], _ => true
  | (_, c) :: cs, user => c.is_available user && availNamed cs user
end

mutual
/-- Embedding of the `_register(user)` hooks, together with the number of times
the node's *own* `_fire` runs during the call.

* `ResourceElement._register` just overwrites `self._user`; it never fires, so
  the count is `0`.
* `ResourceGroup._register` sets `self.__changing = True`, calls
  `comp._register(user)` on every child in children order, runs `self._fire()`
  once, and resets `self.__changing = False`.  During the loop a child that is
  itself a group runs its own `_fire`; the only route by which a child's fire
  can re-run *this* node's `_fire` is this node's `resource_changed` callback,
  and that callback does nothing while `self.__changing` is `True`
  (`ResourceGroup.resource_changed`).  Hence the node's own `_fire` runs
  exactly once — the explicit `self._fire()` — and the flag ends `False`. -/
def Res.registerOp (user : Option User) : Res → Res × Nat
  | .elem i _ => (.elem i user, 0)
  | .set i _ cs => (.set i false (registerList user cs), 1)
  | .map i _ cs => (.map i false (registerNamed user cs), 1)

/-- Cascaded `comp._register(user)` over a `ResourceSet`'s children tuple. -/
def registerList (user : Option User) : List Res → List Res
  | [] => []
  | c :: cs => (c.registerOp user).1 :: registerList user cs

/-- Cascaded `comp._register(user)` over a `ResourceMap`'s ordered entries. -/
def registerNamed (user : Option User) : List (String × Res) → List (String × Res)
  | [] => []
  | (k, c) :: cs => (k, (c.registerOp user).1) :: registerNamed user cs
end

mutual
/-- Embedding of the `_unregister()` hooks with the node's own `_fire` count,
symmetric to `Res.registerOp`: `ResourceElement._unregister` clears
`self._user` without firing; `ResourceGroup._unregister` clears every child
under the `__changing` flag and runs its own `_fire` exactly once. -/
def Res.unregisterOp : Res → Res × Nat
  | .elem i _ => (.elem i none, 0)
  | .set i _ cs => (.set i false (unregisterList cs), 1)
  | .map i _ cs => (.map i false (unregisterNamed cs), 1)

/-- Cascaded `comp._unregister()` over a `ResourceSet`'s children tuple. -/
def unregisterList : List Res → List Res
  | [] => []
  | c :: cs => c.unregisterOp.1 :: unregisterList cs

/-- Cascaded `comp._unregister()` over a `ResourceMap`'s ordered entries. -/
def unregisterNamed : List (String × Res) → List (String × Res)
  | [] => []
  | (k, c) :: cs => (k, c.unregisterOp.1) :: unregisterNamed cs
end

/-- Embedding of `Resource.retain(user)`: if `is_available(user)` is false,
return `Result.failure("resource already used")` with the state untouched and
no `_fire`; otherwise run `self._register(user)`, then `self._fire()` (one more
root fire on top of whatever `_register` fired), and return
`Result.success(self)` — `self` being the mutated object, i.e. the post-state.
The returned `Nat` is the number of times the root's `_fire` ran. -/
def Res.retainOp (r : Res) (user : Option User) : Res × Nat × MResult Res :=
  if r.is_available user then
    let p := r.registerOp user
    (p.1, p.2 + 1, MResult.mkSuccess (some p.1))
  else
    (r, 0, MResult.mkFailure "resource already used")

/-- Embedding of `Resource.release()`: unconditionally `self._unregister()`
then `self._fire()`.  It returns no `Result` in the source; the model returns
the post-state and the root's `_fire` count. -/
def Res.releaseOp (r : Res) : Res × Nat :=
  let p := r.unregisterOp
  (p.1, p.2 + 1)

mutual
/-- The fully released form of a tree: every element's `_user` cleared, every
group's `__changing` flag at its resting value `False`. -/
def Res.cleared : Res → Res
  | .elem i _ => .elem i none
  | .set i _ cs => .set i false (clearedList cs)
  | .map i _ cs => .map i false (clearedNamed cs)

/-- Pointwise `Res.cleared` over a children tuple. -/
def clearedList : List Res → List Res
  | [] => []
  | c :: cs => c.cleared :: clearedList cs

/-- Pointwise `Res.cleared` over ordered map entries. -/
def clearedNamed : List (String × Res) → List (String × Res)
  | [] => []
  | (k, c) :: cs => (k, c.cleared) :: clearedNamed cs
end

mutual
/-- Checks that no element anywhere in the tree has a current user and that
every group's `__changing` flag is `False` — the resting state of a fully
released tree. -/
def Res.isCleared : Res → Bool
  | .elem _ u => u == none
  | .set _ b cs => !b && isClearedList cs
  | .map _ b cs => !b && isClearedNamed cs

/-- Conjunction of `Res.isCleared` over a children tuple. -/
def isClearedList : List Res → Bool
  | [] => true
  | c :: cs => c.isCleared && isClearedList cs

/-- Conjunction of `Res.isCleared` over ordered map entries. -/
def isClearedNamed : List (String × Res) → Bool
  | [] => true
  | (_, c) :: cs => c.isCleared && isClearedNamed cs
end

/-! Observer lists and the group constructors.

`Resource.__init__` gives every object an empty `_observers` list;
`Resource.watch(obj)` appends `obj` if it is not already present.  The lists
are per-object mutable state, modelled as a map from the watched node's id to
the ids of its watchers. -/

/-- Per-object observer lists, keyed by the watched node's object identity. -/
def ObsMap : Type := Nat → List Nat

/-- The state in which no object watches any other. -/
def emptyObs : ObsMap := fun _ => []

/-- Embedding of `Resource.watch(obj)`: append if not already present. -/
def addWatcher (w : Nat) (l : List Nat) : List Nat :=
  if w ∈ l then l else l ++ [w]

/-- One `target.watch(w)` call applied to the observer state. -/
def watchUpd (w : Nat) (target : Nat) (m : ObsMap) : ObsMap :=
  fun i => if i = target then addWatcher w (m i) else m i

/-- De-duplication performed by `ResourceSet.__init__` via
`tuple(set(subcomponents))`.  `Resource` instances hash and compare by object
identity, so duplicates are repeated *objects*, compared here by `Res.nodeId`;
the model fixes the (arbitrary in Python) resulting order to first occurrence.
`seen` accumulates the identities already kept. -/
def dedupByIdAux (seen : List Nat) : List Res → List Res
  | [] => []
  | c :: cs =>
    if c.nodeId ∈ seen then dedupByIdAux seen cs
    else c :: dedupByIdAux (c.nodeId :: seen) cs

/-- De-duplicated children tuple of a new `ResourceSet`. -/
def dedupById (cs : List Res) : List Res := dedupByIdAux [] cs

/-- Embedding of `ResourceSet.__init__(*subcomponents)` run on a fresh object
with identity `selfId`: it stores the de-duplicated children tuple and — unlike
`ResourceMap.__init__` — performs no `watch` call, leaving the observer state
untouched. -/
def mkResourceSet (selfId : Nat) (subs : List Res) (m : ObsMap) : Res × ObsMap :=
  (.set selfId false (dedupById subs), m)

/-- Embedding of `ResourceMap.__init__(subcomponents)` run on a fresh object
with identity `selfId`: it stores the entries in order and calls
`item.watch(self)` on every child (all children here are resources, so the
`isinstance` guard never trips in the model). -/
def mkResourceMap (selfId : Nat) (entries : List (String × Res)) (m : ObsMap) :
    Res × ObsMap :=
  (.map selfId false entries,
   entries.foldl (fun acc e => watchUpd selfId e.2.nodeId acc) m)

/-! The combination operator `Resource.__add__`. -/

/-- Whether the object is a `ResourceGroup` (`isinstance(self, ResourceGroup)`). -/
def Res.isGroup : Res → Bool
  | .elem _ _ => false
  | .set _ _ _ => true
  | .map _ _ _ => true

/-- Embedding of `self.values()` on a group: the children tuple of a
`ResourceSet`, the ordered values of a `ResourceMap` (empty on a leaf, where
the source never calls it). -/
def Res.valuesOf : Res → List Res
  | .elem _ _ => []
  | .set _ _ cs => cs
  | .map _ _ cs => cs.map (fun e => e.2)

/-- The tuple an operand contributes to `__add__`: a group is unpacked into
its children (one level), anything else contributes itself. -/
def unpackOperand (r : Res) : List Res :=
  if r.isGroup then r.valuesOf else [r]

/-- Right-hand operand of `+`: a resource, or a non-`Resource` object of some
Python class (carried as the class name used in the error message). -/
inductive Operand where
  | res (r : Res)
  | notRes (cls : String)

/-- Embedding of `Resource.__add__(other)`: a non-`Resource` operand raises
`ValueError` (modelled as `Except.error`); otherwise both operands are
unpacked one level and a fresh `ResourceSet` (identity `newId`) is built from
the concatenation. -/
def addRes (a : Res) (newId : Nat) : Operand → Except String Res
  | .notRes cls => .error ("cannot add " ++ cls ++ " to Resource")
  | .res b => .ok (mkResourceSet newId (unpackOperand a ++ unpackOperand b) emptyObs).1

/-! The factory `Resource.build`. -/

/-- A configuration value fed to `Resource.build`: Python `None` (the leaf
marker), a mapping (`dict`-like: has callable `keys`/`values`/`items`), or any
other object, carried with its class name for the error message. -/
inductive Cfg where
  | null
  | dict (entries : List (String × Cfg))
  | other (cls : String)

/-- The `cfg.__class__` name interpolated into the `ValueError` message. -/
def Cfg.clsName : Cfg → String
  | .null => "NoneType"
  | .dict _ => "dict"
  | .other cls => cls

/-- Embedding of `mosca.utils.mappable(obj)`: true exactly for mapping-shaped
values (those with callable `keys`, `values` and `items`). -/
def mappable : Cfg → Bool
  | .dict _ => true
  | _ => false

/-- What `Resource.build` actually returns: a fresh `ResourceElement` for each
leaf marker, and for each nested mapping a plain `collections.OrderedDict` —
*not* a `ResourceMap` — hence a type of its own, disjoint from `Res`. -/
inductive Built where
  | elem
  | dict (entries : List (String × Built))
deriving Repr

mutual
/-- Embedding of `Resource.build(cfg)`: raise `ValueError` (modelled as
`Except.error`) unless `cfg` is mappable; otherwise fill an `OrderedDict` in
iteration order, binding `None`-valued keys to fresh elements and recursing on
every other value (so a non-mapping, non-`None` value raises from the
recursive call). -/
def build : Cfg → Except String Built
  | .null => .error ("Resource.build() expects a dict, got " ++ Cfg.clsName .null)
  | .other cls => .error ("Resource.build() expects a dict, got " ++ cls)
  | .dict entries =>
    match buildEntries entries with
    | .error e => .error e
    | .ok out => .ok (.dict out)

/-- One pass of `build`'s loop `for key, val in cfg.items()`. -/
def buildEntries : List (String × Cfg) → Except String (List (String × Built))
  | [] => .ok []
  | (k, v) :: rest =>
    match v with
    | .null =>
      match buildEntries rest with
      | .error e => .error e
      | .ok out => .ok ((k, .elem) :: out)
    | v =>
      match build v with
      | .error e => .error e
      | .ok b =>
        match buildEntries rest with
        | .error e => .error e
        | .ok out => .ok ((k, b) :: out)
end

/-! The notification loop `_fire`.

Both `Resource._fire` and `Observed._fire` read
`for obj in self._observers: if hasattr(obj, cb): obj.cb(...)` —
iterating the *live* list.  A Python list iterator keeps an index and stops
when the index reaches the current length, so callback code that mutates the
list shifts which elements the remaining indices denote.  The model below
makes the index explicit; `hasCb o` is `hasattr(obj, callback)`, and `cb o l`
is the effect of `obj`'s callback on the observer list itself (identity for a
callback that does not touch it).  `fuel` bounds the number of loop
iterations; any `fuel ≥` the greatest length the list reaches is exact. -/

/-- Python `for obj in self._observers` from index `i` with the body of
`_fire`, returning the final list and the log of observers whose callback ran,
in order. -/
def fireSteps (hasCb : Nat → Bool) (cb : Nat → List Nat → List Nat) :
    Nat → Nat → List Nat → List Nat × List Nat
  | 0, _, obs => (obs, [])
  | fuel + 1, i, obs =>
    if h : i < obs.length then
      let o := obs.get ⟨i, h⟩
      if hasCb o then
        let p := fireSteps hasCb cb fuel (i + 1) (cb o obs)
        (p.1, o :: p.2)
      else
        fireSteps hasCb cb fuel (i + 1) obs
    else
      (obs, [])

/-- Embedding of `_fire`: the iteration started at index 0. -/
def fireModel (hasCb : Nat → Bool) (cb : Nat → List Nat → List Nat)
    (fuel : Nat) (obs : List Nat) : List Nat × List Nat :=
  fireSteps hasCb cb fuel 0 obs

/-! Helper lemmas. -/

theorem availList_eq_all : ∀ (cs : List Res) (u : Option User),
    availList cs u = cs.all (fun c => c.is_available u)
  | [], _ => rfl
  | c :: cs, u => by
    simp only [availList, List.all_cons, availList_eq_all cs u]

theorem availNamed_eq_all_map : ∀ (cs : List (String × Res)) (u : Option User),
    availNamed cs u = (cs.map (fun e => e.2)).all (fun c => c.is_available u)
  | [], _ => rfl
  | (_, c) :: cs, u => by
    simp only [availNamed, List.map_cons, List.all_cons, availNamed_eq_all_map cs u]

mutual
theorem unregisterOp_fst_eq_cleared : ∀ r : Res, r.unregisterOp.1 = r.cleared
  | .elem _ _ => rfl
  | .set i b cs => by
    simp only [Res.unregisterOp, Res.cleared, unregisterList_eq_clearedList cs]
  | .map i b cs => by
    simp only [Res.unregisterOp, Res.cleared, unregisterNamed_eq_clearedNamed cs]

theorem unregisterList_eq_clearedList : ∀ cs : List Res, unregisterList cs = clearedList cs
  | [] => rfl
  | c :: cs => by
    simp only [unregisterList, clearedList, unregisterOp_fst_eq_cleared c,
      unregisterList_eq_clearedList cs]

theorem unregisterNamed_eq_clearedNamed : ∀ cs : List (String × Res),
    unregisterNamed cs = clearedNamed cs
  | [] => rfl
  | (k, c) :: cs => by
    simp only [unregisterNamed, clearedNamed, unregisterOp_fst_eq_cleared c,
      unregisterNamed_eq_clearedNamed cs]
end

mutual
theorem cleared_idem : ∀ r : Res, r.cleared.cleared = r.cleared
  | .elem _ _ => rfl
  | .set i b cs => by
    simp only [Res.cleared, clearedList_idem cs]
  | .map i b cs => by
    simp only [Res.cleared, clearedNamed_idem cs]

theorem clearedList_idem : ∀ cs : List Res, clearedList (clearedList cs) = clearedList cs
  | [] => rfl
  | c :: cs => by
    simp only [clearedList, cleared_idem c, clearedList_idem cs]

theorem clearedNamed_idem : ∀ cs : List (String × Res),
    clearedNamed (clearedNamed cs) = clearedNamed cs
  | [] => rfl
  | (k, c) :: cs => by
    simp only [clearedNamed, cleared_idem c, clearedNamed_idem cs]
end

mutual
theorem isCleared_cleared : ∀ r : Res, r.cleared.isCleared = true
  | .elem _ _ => rfl
  | .set i b cs => by
    simp only [Res.cleared, Res.isCleared, isClearedList_clearedList cs,
      Bool.not_false, Bool.and_self]
  | .map i b cs => by
    simp only [Res.cleared, Res.isCleared, isClearedNamed_clearedNamed cs,
      Bool.not_false, Bool.and_self]

theorem isClearedList_clearedList : ∀ cs : List Res, isClearedList (clearedList cs) = true
  | [] => rfl
  | c :: cs => by
    simp only [clearedList, isClearedList, isCleared_cleared c,
      isClearedList_clearedList cs, Bool.and_self]

theorem isClearedNamed_clearedNamed : ∀ cs : List (String × Res),
    isClearedNamed (clearedNamed cs) = true
  | [] => rfl
  | (k, c) :: cs => by
    simp only [clearedNamed, isClearedNamed, isCleared_cleared c,
      isClearedNamed_clearedNamed cs, Bool.and_self]
end

mutual
theorem cleared_of_isCleared : ∀ r : Res, r.isCleared = true → r.cleared = r
  | .elem i u, h => by
    simp only [Res.isCleared, beq_iff_eq] at h
    simp only [Res.cleared, h]
  | .set i b cs, h => by
    simp only [Res.isCleared, Bool.and_eq_true, Bool.not_eq_true'] at h
    simp only [Res.cleared, h.1, clearedList_of_isClearedList cs h.2]
  | .map i b cs, h => by
    simp only [Res.isCleared, Bool.and_eq_true, Bool.not_eq_true'] at h
    simp only [Res.cleared, h.1, clearedNamed_of_isClearedNamed cs h.2]

theorem clearedList_of_isClearedList : ∀ cs : List Res,
    isClearedList cs = true → clearedList cs = cs
  | [], _ => rfl
  | c :: cs, h => by
    simp only [isClearedList, Bool.and_eq_true] at h
    simp only [clearedList, cleared_of_isCleared c h.1, clearedList_of_isClearedList cs h.2]

theorem clearedNamed_of_isClearedNamed : ∀ cs : List (String × Res),
    isClearedNamed cs = true → clearedNamed cs = cs
  | [], _ => rfl
  | (k, c) :: cs, h => by
    simp only [isClearedNamed, Bool.and_eq_true] at h
    simp only [clearedNamed, cleared_of_isCleared c h.1,
      clearedNamed_of_isClearedNamed cs h.2]
end

/-! Claim theorems. -/

/-- C4: `retain(user)` on an unavailable resource returns
`Result.failure("resource already used")`, leaves the state untouched and
fires nothing; on an available resource it applies `_register(user)`, fires
(at least once — exactly one fire more than `_register` itself produced), and
returns `Result.success` carrying the resource itself in its post-mutation
state.  Failure is a returned `Result`, never a raised fault (`retainOp` is
total). -/
theorem C4_retain_result (r : Res) (u : Option User) :
    (r.is_available u = false →
      r.retainOp u = (r, 0, MResult.mkFailure "resource already used")) ∧
    (r.is_available u = true →
      (r.retainOp u).1 = (r.registerOp u).1 ∧
      (r.retainOp u).2.1 = (r.registerOp u).2 + 1 ∧
      1 ≤ (r.retainOp u).2.1 ∧
      (r.retainOp u).2.2 = MResult.mkSuccess (some ((r.registerOp u).1))) := by
  constructor
  · intro h
    simp only [Res.retainOp, h, Bool.false_eq_true, if_false]
  · intro h
    refine ⟨?_, ?_, ?_, ?_⟩
    · simp only [Res.retainOp, h, if_true]
    · simp only [Res.retainOp, h, if_true]
    · simp only [Res.retainOp, h, if_true]
      exact Nat.le_add_left 1 _
    · simp only [Res.retainOp, h, if_true]

/-- C4 witness: a used element refuses a `None` candidate with the exact
failure triple, and a free element grants a fresh user with a success result. -/
theorem C4_retain_result_witness :
    ((Res.elem 1 (some ⟨"A"⟩)).retainOp none =
      (Res.elem 1 (some ⟨"A"⟩), 0, MResult.mkFailure "resource already used")) ∧
    ((Res.elem 2 none).retainOp (some ⟨"B"⟩)).2.2 =
      MResult.mkSuccess (some ((Res.elem 2 none).registerOp (some ⟨"B"⟩)).1) :=
  ⟨(C4_retain_result (Res.elem 1 (some ⟨"A"⟩)) none).1 rfl,
   ((C4_retain_result (Res.elem 2 none) (some ⟨"B"⟩)).2 rfl).2.2.2⟩

/-- C5: `release()` is total (never fails), always fires at least one change
notification, unconditionally clears every user in the tree (the post-state is
the fully cleared tree), releasing twice leaves the same state as releasing
once, and releasing an already-free resource is a state-level no-op. -/
theorem C5_release_idempotent (r : Res) :
    1 ≤ r.releaseOp.2 ∧
    r.releaseOp.1 = r.cleared ∧
    r.releaseOp.1.isCleared = true ∧
    r.releaseOp.1.releaseOp.1 = r.releaseOp.1 ∧
    (r.isCleared = true → r.releaseOp.1 = r) := by
  have hfst : r.releaseOp.1 = r.cleared := by
    simp only [Res.releaseOp, unregisterOp_fst_eq_cleared r]
  refine ⟨Nat.le_add_left 1 _, hfst, ?_, ?_, ?_⟩
  · rw [hfst]; exact isCleared_cleared r
  · rw [hfst]
    show (Res.cleared r).releaseOp.1 = r.cleared
    simp only [Res.releaseOp, unregisterOp_fst_eq_cleared, cleared_idem r]
  · intro h
    rw [hfst]
    exact cleared_of_isCleared r h

/-- C5 witness: releasing an already-free two-element set leaves it unchanged. -/
theorem C5_release_idempotent_witness :
    (Res.set 0 false [Res.elem 1 none, Res.elem 2 none]).releaseOp.1 =
      Res.set 0 false [Res.elem 1 none, Res.elem 2 none] :=
  (C5_release_idempotent (Res.set 0 false [Res.elem 1 none, Res.elem 2 none])).2.2.2.2 rfl

/-- C6: availability of a leaf — a free element is available to every
candidate (including `None`); a used element is unavailable to the `None`
candidate (so `currentUser ≠ None` implies `is_available(None) = False` in
every reachable state); a used element is available to a concrete candidate
exactly when the two `path` values are equal. -/
theorem C6_elem_availability (i : Nat) (c : User) :
    (∀ u : Option User, (Res.elem i none).is_available u = true) ∧
    (Res.elem i (some c)).is_available none = false ∧
    (∀ u : User, (Res.elem i (some c)).is_available (some u) = (c.path == u.path)) :=
  ⟨fun _ => rfl, rfl, fun _ => rfl⟩

/-- C7: a group's availability is the conjunction of its direct children's
availability for the same candidate, and a group with no children is
vacuously available. -/
theorem C7_group_availability (r : Res) (u : Option User) (h : r.isGroup = true) :
    r.is_available u = r.valuesOf.all (fun c => c.is_available u) ∧
    (r.valuesOf = [] → r.is_available u = true) := by
  have key : r.is_available u = r.valuesOf.all (fun c => c.is_available u) := by
    cases r with
    | elem i cur =>
      exact absurd h (by simp [Res.isGroup])
    | set i b cs =>
      simp only [Res.is_available, Res.valuesOf, availList_eq_all cs u]
    | map i b cs =>
      simp only [Res.is_available, Res.valuesOf, availNamed_eq_all_map cs u]
  refine ⟨key, fun hv => ?_⟩
  rw [key, hv]
  rfl

/-- C7 witness: a set of a used and a free element is unavailable to the
`None` candidate (the conjunction over children), and an empty map is
vacuously available. -/
theorem C7_group_availability_witness :
    (Res.set 0 false [Res.elem 1 (some ⟨"A"⟩), Res.elem 2 none]).is_available none =
      ((Res.set 0 false [Res.elem 1 (some ⟨"A"⟩), Res.elem 2 none]).valuesOf.all
        (fun c => c.is_available none)) ∧
    (Res.map 3 false []).is_available none = true :=
  ⟨(C7_group_availability (Res.set 0 false [Res.elem 1 (some ⟨"A"⟩), Res.elem 2 none])
      none rfl).1,
   (C7_group_availability (Res.map 3 false []) none rfl).2 rfl⟩

/-- C10: retaining a free element with the `None` user succeeds, fires exactly
one change notification, and claims nothing — the element still has no current
user, so it stays available to every candidate. -/
theorem C10_retain_none_claims_nothing (i : Nat) :
    ((Res.elem i none).retainOp none).2.2.success = true ∧
    ((Res.elem i none).retainOp none).2.1 = 1 ∧
    ((Res.elem i none).retainOp none).1 = Res.elem i none ∧
    (∀ u : Option User, ((Res.elem i none).retainOp none).1.is_available u = true) :=
  ⟨rfl, rfl, rfl, fun _ => rfl⟩

/-- C1: evaluating the code on the spec's own test case — a `ResourceMap` of
three free elements — a single successful `retain` runs the map's `_fire`
twice, not once: once from the explicit `self._fire()` inside
`ResourceGroup._register` and once more from `Resource.retain` after
`_register` returns, so every observer of the map receives two
`resource_changed` callbacks for the one logical operation.  `release` behaves
the same way (`ResourceGroup._unregister` fires, then `Resource.release` fires
again).  The `__changing` flag only suppresses the *children's* callbacks, not
this duplication. -/
theorem C1_group_operations_fire_twice :
    ((Res.map 0 false [("a", Res.elem 1 none), ("b", Res.elem 2 none),
        ("c", Res.elem 3 none)]).retainOp (some ⟨"A"⟩)).2.1 = 2 ∧
    ((Res.map 0 false [("a", Res.elem 1 none), ("b", Res.elem 2 none),
        ("c", Res.elem 3 none)]).retainOp (some ⟨"A"⟩)).2.2.success = true ∧
    (Res.map 0 false [("a", Res.elem 1 none), ("b", Res.elem 2 none),
        ("c", Res.elem 3 none)]).releaseOp.2 = 2 :=
  ⟨rfl, rfl, rfl⟩

/-- C2: evaluating `Resource.build` on the spec's own test input
`{"x": None, "y": {"z": None}}` — the result is a plain `OrderedDict`
(`Built.dict`), whose nested value under `"y"` is again a plain `OrderedDict`;
no `ResourceMap` is ever constructed (the value lives in `Built`, not `Res`).
Key order matches the input and a non-mapping top-level spec raises
`ValueError`. -/
theorem C2_build_returns_plain_dicts :
    build (Cfg.dict [("x", Cfg.null), ("y", Cfg.dict [("z", Cfg.null)])]) =
      Except.ok (Built.dict [("x", Built.elem), ("y", Built.dict [("z", Built.elem)])]) ∧
    build (Cfg.other "list") = Except.error "Resource.build() expects a dict, got list" :=
  ⟨rfl, rfl⟩

/-- C3 counterexample: constructing a `ResourceSet` (identity 2) over a fresh
element (identity 1) performs no `watch` call — afterwards the set is *not* in
the element's observer list, refuting the claim for `ResourceSet`. -/
theorem C3_set_does_not_watch_children :
    ¬ 2 ∈ (mkResourceSet 2 [Res.elem 1 none] emptyObs).2 1 := by
  decide

/-- Appending oneself as a watcher makes one a watcher (or one already was). -/
theorem addWatcher_self (w : Nat) (l : List Nat) : w ∈ addWatcher w l := by
  unfold addWatcher
  split
  next h => exact h
  next h => exact List.mem_append_right _ (List.mem_singleton.mpr rfl)

/-- `watch` never removes an existing entry. -/
theorem addWatcher_mono (w x : Nat) (l : List Nat) (h : x ∈ l) :
    x ∈ addWatcher w l := by
  unfold addWatcher
  split
  · exact h
  · exact List.mem_append_left _ h

/-- A `watch` call puts the watcher in the target's list. -/
theorem watchUpd_self (w t : Nat) (m : ObsMap) : w ∈ watchUpd w t m t := by
  show w ∈ (if t = t then addWatcher w (m t) else m t)
  rw [if_pos rfl]
  exact addWatcher_self w (m t)

/-- A `watch` call never removes an existing watcher from any list. -/
theorem watchUpd_mono (w x t t' : Nat) (m : ObsMap) (h : x ∈ m t) :
    x ∈ watchUpd w t' m t := by
  show x ∈ (if t = t' then addWatcher w (m t) else m t)
  split
  · exact addWatcher_mono w x (m t) h
  · exact h

/-- The watch-loop of `ResourceMap.__init__` never removes an existing watcher. -/
theorem foldWatch_mono (selfId x t : Nat) :
    ∀ (entries : List (String × Res)) (m : ObsMap), x ∈ m t →
      x ∈ entries.foldl (fun acc e => watchUpd selfId e.2.nodeId acc) m t
  | [], _, h => h
  | e :: rest, m, h => by
    simp only [List.foldl_cons]
    exact foldWatch_mono selfId x t rest _ (watchUpd_mono selfId x t e.2.nodeId m h)

/-- C3 (amended): `ResourceMap.__init__` calls `item.watch(self)` on every
direct child, so immediately after construction the map is in each child's
observer list; `ResourceSet.__init__` performs no such registration (see the
counterexample). -/
theorem C3_map_watches_children :
    ∀ (selfId : Nat) (entries : List (String × Res)) (m : ObsMap) (k : String)
      (c : Res), (k, c) ∈ entries →
      selfId ∈ (mkResourceMap selfId entries m).2 c.nodeId
  | selfId, e :: rest, m, k, c, h => by
    simp only [mkResourceMap, List.foldl_cons]
    rcases List.mem_cons.mp h with h1 | h1
    · subst h1
      exact foldWatch_mono selfId selfId c.nodeId rest _
        (watchUpd_self selfId c.nodeId m)
    · have := C3_map_watches_children selfId rest (watchUpd selfId e.2.nodeId m) k c h1
      simpa [mkResourceMap] using this

/-- C3 witness: a map (identity 5) over the single child element (identity 1)
is in that child's observer list right after construction. -/
theorem C3_map_watches_children_witness :
    5 ∈ (mkResourceMap 5 [("a", Res.elem 1 none)] emptyObs).2 1 :=
  C3_map_watches_children 5 [("a", Res.elem 1 none)] emptyObs "a" (Res.elem 1 none)
    (List.Mem.head _)

/-- C8: `a + b` builds a fresh `ResourceSet` from the one-level unpacking of
both operands (a group contributes its children, anything else itself), a
non-`Resource` right operand raises `ValueError`, and on three pairwise
distinct plain elements `(a + b) + c` yields a set whose direct children are
exactly `a`, `b`, `c` — the intermediate set is flattened, no set-of-set. -/
theorem C8_add_flattening :
    (∀ (a b : Res) (nid : Nat),
      addRes a nid (Operand.res b) =
        Except.ok (Res.set nid false (dedupById (unpackOperand a ++ unpackOperand b)))) ∧
    (∀ (a : Res) (nid : Nat) (cls : String),
      addRes a nid (Operand.notRes cls) =
        Except.error ("cannot add " ++ cls ++ " to Resource")) ∧
    (∀ (i j k n1 n2 : Nat), i ≠ j → i ≠ k → j ≠ k →
      addRes (Res.elem i none) n1 (Operand.res (Res.elem j none)) =
        Except.ok (Res.set n1 false [Res.elem i none, Res.elem j none]) ∧
      addRes (Res.set n1 false [Res.elem i none, Res.elem j none]) n2
          (Operand.res (Res.elem k none)) =
        Except.ok (Res.set n2 false
          [Res.elem i none, Res.elem j none, Res.elem k none])) := by
  refine ⟨fun a b nid => rfl, fun a nid cls => rfl, ?_⟩
  intro i j k n1 n2 hij hik hjk
  have hji : j ≠ i := fun h => hij h.symm
  have hki : k ≠ i := fun h => hik h.symm
  have hkj : k ≠ j := fun h => hjk h.symm
  constructor
  · simp [addRes, mkResourceSet, unpackOperand, Res.isGroup, Res.valuesOf,
      dedupById, dedupByIdAux, Res.nodeId, hji]
  · simp [addRes, mkResourceSet, unpackOperand, Res.isGroup, Res.valuesOf,
      dedupById, dedupByIdAux, Res.nodeId, hji, hki, hkj]

/-- C8 witness: `(e1 + e2) + e3` on three distinct elements has exactly the
three elements as direct children. -/
theorem C8_add_flattening_witness :
    addRes (Res.elem 1 none) 10 (Operand.res (Res.elem 2 none)) =
      Except.ok (Res.set 10 false [Res.elem 1 none, Res.elem 2 none]) ∧
    addRes (Res.set 10 false [Res.elem 1 none, Res.elem 2 none]) 11
        (Operand.res (Res.elem 3 none)) =
      Except.ok (Res.set 11 false
        [Res.elem 1 none, Res.elem 2 none, Res.elem 3 none]) :=
  C8_add_flattening.2.2 1 2 3 10 11 (by decide) (by decide) (by decide)

/-- C9 counterexample: with the live-list iteration of `_fire`, observers
`[1, 2]` both implementing the callback, where observer 1's callback calls
`unwatch(1)` (`List.erase` — exactly what `Resource.unwatch` does), the loop
notifies only observer 1: observer 2, present when the fire started, is
skipped because the removal shifted it under the already-consumed index.  This
refutes "every subscriber present at the start is notified exactly once". -/
theorem C9_live_iteration_skips_subscriber :
    (fireModel (fun _ => true) (fun o l => if o = 1 then l.erase 1 else l)
      10 [1, 2]).2 = [1] ∧
    ¬ 2 ∈ (fireModel (fun _ => true) (fun o l => if o = 1 then l.erase 1 else l)
      10 [1, 2]).2 := by
  constructor
  · rfl
  · decide

/-- When no callback mutates the observer list, the loop from index `i`
notifies exactly the remaining observers that implement the callback, in
order. -/
theorem fireSteps_no_mutation (hasCb : Nat → Bool) (cb : Nat → List Nat → List Nat)
    (hcb : ∀ o l, cb o l = l) :
    ∀ (fuel i : Nat) (obs : List Nat), obs.length - i ≤ fuel →
      fireSteps hasCb cb fuel i obs = (obs, (obs.drop i).filter hasCb)
  | 0, i, obs, hfuel => by
    have hlen : obs.length ≤ i := by omega
    simp only [fireSteps, List.drop_eq_nil_of_le hlen, List.filter_nil]
  | fuel + 1, i, obs, hfuel => by
    by_cases h : i < obs.length
    · have hdrop : obs.drop i = obs.get ⟨i, h⟩ :: obs.drop (i + 1) :=
        List.drop_eq_getElem_cons h
      have hrec := fireSteps_no_mutation hasCb cb hcb fuel (i + 1) obs (by omega)
      simp only [fireSteps, dif_pos h, hcb, hrec, hdrop, List.filter_cons]
      split <;> rfl
    · have hlen : obs.length ≤ i := by omega
      simp only [fireSteps, dif_neg h, List.drop_eq_nil_of_le hlen, List.filter_nil]

/-- C9 (amended): `_fire` iterates the live observer list, not a snapshot.
When no callback mutates the list during the iteration, every observer present
at the start whose callback exists is notified exactly once (in list order)
and the list is unchanged; but a callback that removes an entry shifts the
remaining observers under the iteration index and later subscribers can be
skipped (see the counterexample).  The loop itself never crashes on such
mutation — it is a total function. -/
theorem C9_fire_without_mutation_notifies_once (hasCb : Nat → Bool)
    (cb : Nat → List Nat → List Nat) (obs : List Nat) (fuel : Nat)
    (hcb : ∀ o l, cb o l = l) (hfuel : obs.length ≤ fuel) :
    fireModel hasCb cb fuel obs = (obs, obs.filter hasCb) := by
  have h := fireSteps_no_mutation hasCb cb hcb fuel 0 obs (by omega)
  simpa [fireModel] using h

/-- C9 witness: three observers, only observer 2 implementing the callback,
no callback mutation — exactly observer 2 is notified. -/
theorem C9_fire_without_mutation_witness :
    fireModel (fun o => o == 2) (fun _ l => l) 3 [1, 2, 3] = ([1, 2, 3], [2]) := by
  rw [C9_fire_without_mutation_notifies_once (fun o => o == 2) (fun _ l => l)
    [1, 2, 3] 3 (fun _ _ => rfl) (by decide)]
  rfl



